import Mathlib

/-!
Verification of `winauth-totp-clip` (`src/oauth_script.py`) against its
natural-language specification.

The script scans a WinAuth-style text export for lines of the form
`otpauth://totp/<label>?<query>`, picks the first line whose label contains a
query substring, and computes the current TOTP code for that record via
`pyotp.TOTP(secret, digits=digits).now()`.

Modelling conventions of this shallow embedding:
* Python strings are `List Char`; byte strings are `List Nat` with entries
  below 256.
* Python string case-folding (`str.lower`) is modelled with `Char.toLower`,
  which agrees with Python on the ASCII range exercised by the program's
  markers, keys and queries.
* Fallible Python code (a raised `ValueError`/`binascii.Error`) is modelled
  with `Except String`/`Option`.
* The functions `parse_first_match` and `search_and_generate_oauth` are
  translated line by line from `src/oauth_script.py`.  The `pyotp` library is
  an external dependency whose sources are not part of the repository; the
  TOTP generator is therefore modelled from the specification (§4.2), which
  pins it to RFC 6238 / RFC 4226 over HMAC-SHA1 with RFC 4648 base32.
* File I/O, terminal colours (`print_colored_box`) and the clipboard
  shell-outs are out of scope per §1 of the spec; the clipboard is an opaque
  oracle `List Char → Bool` and the run result records the success boolean
  and the code printed to stdout on clipboard failure.
-/

set_option maxRecDepth 40000

deriving instance DecidableEq for Except

namespace OauthScript

/-- Lower-case a Python string (`str.lower`, ASCII fragment). -/
def lower (s : List Char) : List Char := s.map Char.toLower

/-- Python `str.split(sep)` for a one-character separator: no collapsing of
empty fields, `"".split(sep) = [""]`. -/
def splitOnChar (sep : Char) : List Char → List (List Char)
  | [] => [[]]
  | c :: cs =>
    let r := splitOnChar sep cs
    if c = sep then [] :: r
    else
      match r with
      | [] => [[c]]
      | h :: t => (c :: h) :: t

/-- Python `kv.split("=", 1)` guarded by `"=" in kv`: split at the first `=`
only, `none` when the pair contains no `=`. -/
def splitOnceEq : List Char → Option (List Char × List Char)
  | [] => none
  | c :: cs =>
    if c = '=' then some ([], cs)
    else (splitOnceEq cs).map (fun kv => (c :: kv.1, kv.2))

/-- The Python dict built by `params[k.lower()] = v` over the pairs in order:
an association list of (lower-cased key, value) bindings, later bindings
shadowing earlier ones. -/
def buildParams (pairs : List (List Char)) : List (List Char × List Char) :=
  (pairs.filterMap splitOnceEq).map (fun kv => (lower kv.1, kv.2))

/-- `params.get(k)` on the dict modelled by `buildParams`: the value of the
LAST binding of `k`, since later assignments overwrite earlier ones. -/
def dictGet (k : List Char) : List (List Char × List Char) → Option (List Char)
  | [] => none
  | kv :: rest =>
    match dictGet k rest with
    | some v => some v
    | none => if kv.1 = k then some kv.2 else none

/-- Characters stripped by Python `int(str)` around the literal. -/
def pyWhitespace (c : Char) : Bool :=
  c = ' ' ∨ c = '\t' ∨ c = '\n' ∨ c = '\x0d' ∨ c = '\x0b' ∨ c = '\x0c'

/-- Strip `pyWhitespace` from both ends. -/
def pyStrip (s : List Char) : List Char :=
  ((s.dropWhile pyWhitespace).reverse.dropWhile pyWhitespace).reverse

/-- Digits of an `int()` literal after the first: each is an ASCII digit,
with single underscores allowed between digits only. -/
def pyDigitsTail : List Char → Option (List Char)
  | [] => some []
  | '_' :: c :: cs =>
    if c.isDigit then (pyDigitsTail cs).map (fun ds => c :: ds) else none
  | ['_'] => none
  | c :: cs =>
    if c.isDigit then (pyDigitsTail cs).map (fun ds => c :: ds) else none

/-- Numeric value of a list of ASCII digits. -/
def digitsToNat (ds : List Char) : Nat :=
  ds.foldl (fun a c => 10 * a + (c.toNat - 48)) 0

/-- Python `int(s)` on a base-10 string literal: optional surrounding
whitespace, optional sign, then digits with optional single underscores
between them; `none` models the raised `ValueError`. -/
def pyInt : List Char → Option Int := fun s =>
  let t := pyStrip s
  let signAndBody : Bool × List Char :=
    match t with
    | '-' :: r => (true, r)
    | '+' :: r => (false, r)
    | r => (false, r)
  match signAndBody.2 with
  | [] => none
  | c :: cs =>
    if c.isDigit then
      (pyDigitsTail cs).map (fun ds =>
        let n : Int := Int.ofNat (digitsToNat (c :: ds))
        if signAndBody.1 then -n else n)
    else none

/-- Python substring containment `needle in hay`: `needle` is a contiguous
run of `hay` (the empty string is contained in everything). -/
def pyContains (needle : List Char) : List Char → Bool
  | [] => needle.isEmpty
  | c :: t => needle.isPrefixOf (c :: t) || pyContains needle t

/-- The character class of the regex `\s` for Python `str` patterns: ASCII
whitespace, the `\x1c`–`\x1f` separator controls, NEL, NBSP, and the Unicode
space, line and paragraph separators. -/
def reWhitespace (c : Char) : Bool :=
  c = ' ' ∨ c = '\t' ∨ c = '\n' ∨ c = '\x0b' ∨ c = '\x0c' ∨ c = '\x0d' ∨
  c = '\x1c' ∨ c = '\x1d' ∨ c = '\x1e' ∨ c = '\x1f' ∨ c = '\x85' ∨
  c = '\xa0' ∨ c = '\u1680' ∨ ('\u2000' ≤ c ∧ c ≤ '\u200a') ∨
  c = '\u2028' ∨ c = '\u2029' ∨ c = '\u202f' ∨ c = '\u205f' ∨ c = '\u3000'

/-- The literal scheme marker of the regex in `parse_first_match`. -/
def schemeMarker : List Char := "otpauth://totp/".data

/-- One attempt of the regex `otpauth://totp/([^?]+)\?([^\s]+)` (with
`re.IGNORECASE`) at the start of `s`: the marker compared case-insensitively,
then a maximal non-empty run of non-`?` characters (the label), a literal
`?`, and a maximal non-empty run of characters outside the `\s` class
(the query). -/
def matchAt (s : List Char) : Option (List Char × List Char) :=
  if lower (s.take 15) = schemeMarker then
    let rest := s.drop 15
    let label := rest.takeWhile (fun c => c ≠ '?')
    match rest.drop label.length with
    | '?' :: after =>
      if label.isEmpty then none
      else
        let query := after.takeWhile (fun c => ¬ reWhitespace c)
        if query.isEmpty then none else some (label, query)
    | _ => none
  else none

/-- `re.search` for the pattern above: try every start position from the
left, first success wins. -/
def reSearch : List Char → Option (List Char × List Char)
  | [] => none
  | c :: cs =>
    match matchAt (c :: cs) with
    | some r => some r
    | none => reSearch cs

/-- The parsed record returned by `parse_first_match`:
`{"label": label, "secret": secret, "digits": digits}`. -/
structure Descriptor where
  label : List Char
  secret : List Char
  digits : Int
deriving DecidableEq

/-- Key `"secret"`. -/
def secretKey : List Char := "secret".data

/-- Key `"digits"`. -/
def digitsKey : List Char := "digits".data

/-- `parse_first_match(line, needle)` from `src/oauth_script.py`:
regex search, case-insensitive substring filter of `needle` against the
label, manual query-string parse, required non-empty `secret`, and
`digits = int(params.get("digits", 6))` whose parse failure raises
(`.error`). -/
def parse_first_match (line needle : List Char) : Except String (Option Descriptor) :=
  match reSearch line with
  | none => .ok none
  | some lq =>
    if pyContains (lower needle) (lower lq.1) then
      let params := buildParams (splitOnChar '&' lq.2)
      match dictGet secretKey params with
      | none => .ok none
      | some s =>
        if s.isEmpty then .ok none
        else
          match dictGet digitsKey params with
          | none => .ok (some ⟨lq.1, s, 6⟩)
          | some dstr =>
            match pyInt dstr with
            | none => .error "ValueError: invalid literal for int() with base 10"
            | some d => .ok (some ⟨lq.1, s, d⟩)
    else .ok none

/-- The extractor contract of §4.1: scan the lines in order and return the
descriptor of the first line on which `parse_first_match` succeeds; a raised
error aborts the scan. -/
def find_descriptor (lines : List (List Char)) (needle : List Char) :
    Except String (Option Descriptor) :=
  match lines with
  | [] => .ok none
  | l :: ls =>
    match parse_first_match l needle with
    | .error e => .error e
    | .ok none => find_descriptor ls needle
    | .ok (some d) => .ok (some d)

/-! ### The TOTP generator

Modelled from the spec: the repository calls `pyotp.TOTP(secret,
digits=digits).now()`, and `pyotp` is an external dependency whose sources
are not part of the repository.  §4.2 of the spec pins the generator to the
standard algorithm: RFC 4648 base32 decoding (case-insensitive, tolerating
missing `=` padding), counter `⌊t/30⌋`, HOTP per RFC 4226 over HMAC-SHA1,
and zero-padded decimal formatting, with error conditions `InvalidSecret`
and `InvalidDigits` (digits ≤ 0 or > 10). -/

/-- Value of one base32 character, case-insensitive alphabet `A–Z2–7`. -/
def b32val (c : Char) : Option Nat :=
  let u := c.toUpper
  if 'A' ≤ u ∧ u ≤ 'Z' then some (u.toNat - 65)
  else if '2' ≤ u ∧ u ≤ '7' then some (u.toNat - 24)
  else none

/-- Accumulate the 5-bit values of a base32 quantum into a single number. -/
def quantaAcc (acc : Nat) : List Char → Option Nat
  | [] => some acc
  | c :: cs =>
    match b32val c with
    | none => none
    | some v => quantaAcc (acc * 32 + v) cs

/-- The `k` big-endian bytes of `n` (most significant first). -/
def natToBytesBE : Nat → Nat → List Nat
  | 0, _ => []
  | k + 1, n => natToBytesBE k (n / 256) ++ [n % 256]

/-- Big-endian numeric value of a byte list. -/
def natFromBytesBE (bs : List Nat) : Nat :=
  bs.foldl (fun a b => a * 256 + b) 0

/-- Modelled from the spec: RFC 4648 base32 decoding of the `=`-stripped
input, 8-character quanta giving 5 bytes each; a trailing partial quantum is
legal only with 2, 4, 5 or 7 characters and contributes
`⌊5·len/8⌋` bytes, the top bytes of the 40-bit group. -/
def b32core : List Char → Option (List Nat)
  | [] => some []
  | c0 :: c1 :: c2 :: c3 :: c4 :: c5 :: c6 :: c7 :: rest =>
    match quantaAcc 0 [c0, c1, c2, c3, c4, c5, c6, c7] with
    | none => none
    | some acc =>
      match b32core rest with
      | none => none
      | some bs => some (natToBytesBE 5 acc ++ bs)
  | s =>
    match quantaAcc 0 s with
    | none => none
    | some acc =>
      let padchars := 8 - s.length
      if padchars = 1 ∨ padchars = 3 ∨ padchars = 4 ∨ padchars = 6 then
        some ((natToBytesBE 5 (acc <<< (5 * padchars))).take ((43 - 5 * padchars) / 8))
      else none

/-- Drop trailing `=` padding characters. -/
def stripTrailingEq (s : List Char) : List Char :=
  (s.reverse.dropWhile (fun c => c = '=')).reverse

/-- Modelled from the spec: decode the shared secret.  Per §4.2 the decoding
is case-insensitive and pads a secret whose length is not a multiple of 8
with `=` before decoding; the number of padding characters must be one of
0, 1, 3, 4, 6 and every remaining character must be in the base32 alphabet,
otherwise the secret is invalid (`none`). -/
def byte_secret (secret : List Char) : Option (List Nat) :=
  let padded := secret ++ List.replicate ((8 - secret.length % 8) % 8) '='
  let stripped := stripTrailingEq padded
  let padchars := padded.length - stripped.length
  if padchars = 0 ∨ padchars = 1 ∨ padchars = 3 ∨ padchars = 4 ∨ padchars = 6 then
    b32core stripped
  else none

/-! SHA-1 (FIPS 180-4), on bytes as `Nat` below 256, words as `Nat` below
`2^32` with explicit `% 2^32` where overflow matters. -/

/-- `2^32`. -/
def w32 : Nat := 4294967296

/-- Rotate a 32-bit word left by `n`. -/
def rotl32 (n x : Nat) : Nat := ((x <<< n) ||| (x >>> (32 - n))) % w32

/-- Group bytes into big-endian 32-bit words. -/
def toWords32 : List Nat → List Nat
  | b0 :: b1 :: b2 :: b3 :: rest =>
    (((b0 * 256 + b1) * 256 + b2) * 256 + b3) :: toWords32 rest
  | _ => []

/-- Extend 16 schedule words by `n` more:
`w[i] = rotl1 (w[i-3] xor w[i-8] xor w[i-14] xor w[i-16])`.  The accumulator
is kept reversed. -/
def expandFrom (acc : List Nat) : Nat → List Nat
  | 0 => acc.reverse
  | n + 1 =>
    expandFrom
      (rotl32 1 (acc.getD 2 0 ^^^ acc.getD 7 0 ^^^ acc.getD 13 0 ^^^ acc.getD 15 0) :: acc) n

/-- The 80 schedule words of a block. -/
def expand80 (ws : List Nat) : List Nat := expandFrom ws.reverse 64

/-- SHA-1 round constant. -/
def sha1K (t : Nat) : Nat :=
  if t < 20 then 0x5A827999
  else if t < 40 then 0x6ED9EBA1
  else if t < 60 then 0x8F1BBCDC
  else 0xCA62C1D6

/-- SHA-1 round function (Ch, Parity, Maj, Parity). -/
def sha1F (t b c d : Nat) : Nat :=
  if t < 20 then (b &&& c) ||| ((b ^^^ 0xFFFFFFFF) &&& d)
  else if t < 40 then b ^^^ c ^^^ d
  else if t < 60 then (b &&& c) ||| (b &&& d) ||| (c &&& d)
  else b ^^^ c ^^^ d

/-- One SHA-1 round on `(t, a, b, c, d, e)` with schedule word `w`. -/
def sha1Round : Nat × Nat × Nat × Nat × Nat × Nat → Nat →
    Nat × Nat × Nat × Nat × Nat × Nat
  | (t, a, b, c, d, e), w =>
    (t + 1, (rotl32 5 a + sha1F t b c d + e + sha1K t + w) % w32,
      a, rotl32 30 b, c, d)

/-- The five-word SHA-1 state. -/
structure H5 where
  h0 : Nat
  h1 : Nat
  h2 : Nat
  h3 : Nat
  h4 : Nat
deriving DecidableEq

/-- SHA-1 initial state. -/
def sha1Init : H5 := ⟨0x67452301, 0xEFCDAB89, 0x98BADCFE, 0x10325476, 0xC3D2E1F0⟩

/-- Compress one block, given as its 16 schedule words, into the state. -/
def sha1Block (h : H5) (block : List Nat) : H5 :=
  let r := (expand80 block).foldl sha1Round (0, h.h0, h.h1, h.h2, h.h3, h.h4)
  ⟨(h.h0 + r.2.1) % w32, (h.h1 + r.2.2.1) % w32, (h.h2 + r.2.2.2.1) % w32,
    (h.h3 + r.2.2.2.2.1) % w32, (h.h4 + r.2.2.2.2.2) % w32⟩

/-- Split a word list into blocks of 16 words (64 bytes). -/
def chunksW16 : List Nat → List (List Nat)
  | w0 :: w1 :: w2 :: w3 :: w4 :: w5 :: w6 :: w7 ::
      w8 :: w9 :: w10 :: w11 :: w12 :: w13 :: w14 :: w15 :: rest =>
    [w0, w1, w2, w3, w4, w5, w6, w7, w8, w9, w10, w11, w12, w13, w14, w15] ::
      chunksW16 rest
  | _ => []

/-- Merkle–Damgård padding: `0x80`, zeros to 56 mod 64, 8-byte big-endian
bit length. -/
def sha1Pad (msg : List Nat) : List Nat :=
  msg ++ [128] ++ List.replicate ((119 - msg.length % 64) % 64) 0 ++
    natToBytesBE 8 (8 * msg.length)

/-- SHA-1 of a byte list, as 20 bytes. -/
def sha1 (msg : List Nat) : List Nat :=
  let h := (chunksW16 (toWords32 (sha1Pad msg))).foldl sha1Block sha1Init
  natToBytesBE 4 h.h0 ++ natToBytesBE 4 h.h1 ++ natToBytesBE 4 h.h2 ++
    natToBytesBE 4 h.h3 ++ natToBytesBE 4 h.h4

/-- HMAC-SHA1 (RFC 2104) with a 64-byte block size. -/
def hmacSha1 (key msg : List Nat) : List Nat :=
  let k0 := if 64 < key.length then sha1 key else key
  let kp := k0 ++ List.replicate (64 - k0.length) 0
  sha1 ((kp.map (fun b => b ^^^ 92)) ++ sha1 ((kp.map (fun b => b ^^^ 54)) ++ msg))

/-- Left-pad a digit string with `'0'` to exactly `n` characters. -/
def padLeftZeros (n : Nat) (ds : List Char) : List Char :=
  List.replicate (n - ds.length) '0' ++ ds

/-- Modelled from the spec: the TOTP generator of §4.2 standing in for
`pyotp.TOTP(secret, digits=digits).now()` at Unix time `t`.  Digits outside
`1..10` are `InvalidDigits`, an undecodable secret is `InvalidSecret`;
otherwise the counter is `⌊t/30⌋`, HMAC-SHA1 of its 8 big-endian bytes is
dynamically truncated (offset = low nibble of the last MAC byte, 4 bytes,
31-bit mask), reduced mod `10^digits` and zero-padded to `digits`. -/
def totp_generate (d : Descriptor) (t : Nat) : Except String (List Char) :=
  if d.digits ≤ 0 ∨ 10 < d.digits then .error "InvalidDigits"
  else
    match byte_secret d.secret with
    | none => .error "InvalidSecret"
    | some key =>
      let counter := t / 30
      let mac := hmacSha1 key (natToBytesBE 8 counter)
      let offset := mac.getD (mac.length - 1) 0 &&& 15
      let binCode := natFromBytesBE ((mac.drop offset).take 4) &&& 0x7FFFFFFF
      let n := d.digits.toNat
      .ok (padLeftZeros n (Nat.toDigits 10 (binCode % 10 ^ n)))

/-- The RFC 6238 reference computation exactly as the spec words it, on an
already-decoded key: counter `⌊t/30⌋` with a fixed 30-second step, HMAC-SHA1
of the 8-byte big-endian counter, dynamic truncation (low nibble of the last
MAC byte as offset, 4 bytes, 31-bit mask), reduction mod `10^digits`, and
zero-padded decimal formatting to exactly `digits` characters. -/
def rfc6238_reference (key : List Nat) (digits t : Nat) : List Char :=
  let counter := t / 30
  let mac := hmacSha1 key (natToBytesBE 8 counter)
  let offset := mac.getD (mac.length - 1) 0 &&& 15
  let binCode := natFromBytesBE ((mac.drop offset).take 4) &&& 0x7FFFFFFF
  padLeftZeros digits (Nat.toDigits 10 (binCode % 10 ^ digits))

/-! ### The pipeline `search_and_generate_oauth` -/

/-- Observable outcome of one run of `search_and_generate_oauth`: the
returned boolean and the code printed to stdout when the clipboard write
failed (the colored box is cosmetic and out of scope per §1). -/
structure RunResult where
  ok : Bool
  printedCode : Option (List Char)
deriving DecidableEq

/-- `search_and_generate_oauth` from `src/oauth_script.py` over an in-memory
list of lines: scan the lines in order; on the first line whose
`parse_first_match` yields a descriptor, generate the code, try the
clipboard oracle `clip`, print the code to stdout iff the clipboard failed,
and return `True`; if the scan exhausts the source return `False`.  A raised
error (`.error`) aborts the whole run. -/
def search_and_generate_oauth (lines : List (List Char)) (needle : List Char)
    (t : Nat) (clip : List Char → Bool) : Except String RunResult :=
  match lines with
  | [] => .ok ⟨false, none⟩
  | l :: ls =>
    match parse_first_match l needle with
    | .error e => .error e
    | .ok none => search_and_generate_oauth ls needle t clip
    | .ok (some d) =>
      match totp_generate d t with
      | .error e => .error e
      | .ok code =>
        let copied := clip code
        .ok ⟨true, if copied then none else some code⟩

/-- The boolean a run returned, `none` when the run raised. -/
def okBool : Except String RunResult → Option Bool
  | .error _ => none
  | .ok r => some r.ok

/-! ### Helper lemmas -/

/-- Lines on which `parse_first_match` yields nothing are skipped by the
extractor. -/
theorem find_descriptor_skip (pre rest : List (List Char)) (needle : List Char)
    (h : ∀ l ∈ pre, parse_first_match l needle = .ok none) :
    find_descriptor (pre ++ rest) needle = find_descriptor rest needle := by
  induction pre with
  | nil => rfl
  | cons l ls ih =>
    have hl := h l (by simp)
    simp only [List.cons_append, find_descriptor, hl]
    exact ih (fun l' hl' => h l' (by simp [hl']))

/-- Lines on which `parse_first_match` yields nothing are skipped by the
pipeline. -/
theorem search_skip (pre rest : List (List Char)) (needle : List Char) (t : Nat)
    (clip : List Char → Bool)
    (h : ∀ l ∈ pre, parse_first_match l needle = .ok none) :
    search_and_generate_oauth (pre ++ rest) needle t clip =
      search_and_generate_oauth rest needle t clip := by
  induction pre with
  | nil => rfl
  | cons l ls ih =>
    have hl := h l (by simp)
    simp only [List.cons_append, search_and_generate_oauth, hl]
    exact ih (fun l' hl' => h l' (by simp [hl']))

/-- A separator-free chunk followed by the separator splits off whole. -/
theorem splitOnChar_append_sep (sep : Char) (p s : List Char) (hp : sep ∉ p) :
    splitOnChar sep (p ++ sep :: s) = p :: splitOnChar sep s := by
  induction p with
  | nil => simp [splitOnChar]
  | cons c cs ih =>
    have hc : ¬ c = sep := fun hcc => hp (by simp [hcc])
    have hcs : sep ∉ cs := fun hm => hp (by simp [hm])
    simp only [List.cons_append, splitOnChar, if_neg hc]
    show (match splitOnChar sep (cs ++ sep :: s) with
      | [] => [[c]]
      | h :: t => (c :: h) :: t) = (c :: cs) :: splitOnChar sep s
    rw [ih hcs]

/-- A separator-free string does not split. -/
theorem splitOnChar_no_sep (sep : Char) (p : List Char) (hp : sep ∉ p) :
    splitOnChar sep p = [p] := by
  induction p with
  | nil => rfl
  | cons c cs ih =>
    have hc : ¬ c = sep := fun hcc => hp (by simp [hcc])
    have hcs : sep ∉ cs := fun hm => hp (by simp [hm])
    simp only [splitOnChar, if_neg hc, ih hcs]

/-- Splitting a pair at the FIRST `=`: the value keeps any further `=`. -/
theorem splitOnceEq_first (k v : List Char) (hk : '=' ∉ k) :
    splitOnceEq (k ++ '=' :: v) = some (k, v) := by
  induction k with
  | nil => simp [splitOnceEq]
  | cons c cs ih =>
    have hc : ¬ c = '=' := fun hcc => hk (by simp [hcc])
    have hcs : '=' ∉ cs := fun hm => hk (by simp [hm])
    simp [splitOnceEq, if_neg hc, ih hcs]

/-- A pair without `=` does not split. -/
theorem splitOnceEq_no_eq (p : List Char) (hp : '=' ∉ p) :
    splitOnceEq p = none := by
  induction p with
  | nil => rfl
  | cons c cs ih =>
    have hc : ¬ c = '=' := fun hcc => hp (by simp [hcc])
    have hcs : '=' ∉ cs := fun hm => hp (by simp [hm])
    simp [splitOnceEq, if_neg hc, ih hcs]

/-- A later binding of a key wins over anything before it. -/
theorem dictGet_append_some (key v : List Char)
    (ps1 ps2 : List (List Char × List Char)) (h : dictGet key ps2 = some v) :
    dictGet key (ps1 ++ ps2) = some v := by
  induction ps1 with
  | nil => simpa using h
  | cons kv ps ih => simp [dictGet, ih]

/-- A binding of a different key is transparent to `dictGet`. -/
theorem dictGet_cons_ne (g : List Char) (kv : List Char × List Char)
    (ps : List (List Char × List Char)) (h : kv.1 ≠ g) :
    dictGet g (kv :: ps) = dictGet g ps := by
  cases hg : dictGet g ps <;> simp [dictGet, hg, h]

/-! ### Claims -/

/-- C2: the returned descriptor is built from the first line that passes all
filters; processing stops immediately after that line, so the run's outcome
does not depend on anything after it, and in particular the generator is
never invoked on a later matching line. -/
theorem c2_first_match_wins (pre rest : List (List Char)) (l needle : List Char)
    (t : Nat) (clip : List Char → Bool) (d : Descriptor)
    (hpre : ∀ l' ∈ pre, parse_first_match l' needle = .ok none)
    (hl : parse_first_match l needle = .ok (some d)) :
    find_descriptor (pre ++ l :: rest) needle = .ok (some d) ∧
    search_and_generate_oauth (pre ++ l :: rest) needle t clip =
      search_and_generate_oauth (pre ++ [l]) needle t clip := by
  constructor
  · rw [find_descriptor_skip pre _ needle hpre]
    simp [find_descriptor, hl]
  · rw [search_skip pre _ needle t clip hpre, search_skip pre _ needle t clip hpre]
    simp only [search_and_generate_oauth, hl]

/-- C2 witness: two matching lines, the earlier one's descriptor is returned
and the run ignores the later one. -/
theorem c2_first_match_wins_witness :
    find_descriptor ["x".data, "otpauth://totp/w?secret=AA".data,
        "otpauth://totp/w?secret=BB".data] "w".data =
      .ok (some ⟨"w".data, "AA".data, 6⟩) ∧
    search_and_generate_oauth ["x".data, "otpauth://totp/w?secret=AA".data,
        "otpauth://totp/w?secret=BB".data] "w".data 59 (fun _ => true) =
      search_and_generate_oauth ["x".data, "otpauth://totp/w?secret=AA".data]
        "w".data 59 (fun _ => true) :=
  c2_first_match_wins ["x".data] ["otpauth://totp/w?secret=BB".data]
    "otpauth://totp/w?secret=AA".data "w".data 59 (fun _ => true)
    ⟨"w".data, "AA".data, 6⟩ (by decide) (by decide)

/-- C6: a label-matching line without a `secret` key is skipped without an
error and scanning continues; an exhausted or empty source is a normal
not-found outcome reported as `false`. -/
theorem c6_missing_secret_skips (line needle lab q : List Char)
    (hre : reSearch line = some (lab, q))
    (hlab : pyContains (lower needle) (lower lab) = true)
    (hs : dictGet secretKey (buildParams (splitOnChar '&' q)) = none) :
    parse_first_match line needle = .ok none ∧
    (∀ rest, find_descriptor (line :: rest) needle = find_descriptor rest needle) ∧
    (∀ rest t clip, search_and_generate_oauth (line :: rest) needle t clip =
       search_and_generate_oauth rest needle t clip) ∧
    find_descriptor [] needle = .ok none ∧
    (∀ lines t clip, (∀ l ∈ lines, parse_first_match l needle = .ok none) →
       search_and_generate_oauth lines needle t clip = .ok ⟨false, none⟩) := by
  have hp : parse_first_match line needle = .ok none := by
    simp [parse_first_match, hre, hlab, hs]
  refine ⟨hp, fun rest => by simp [find_descriptor, hp],
    fun rest t clip => by simp [search_and_generate_oauth, hp], rfl,
    fun lines t clip h => ?_⟩
  have := search_skip lines [] needle t clip h
  simpa [search_and_generate_oauth] using this

/-- C6 witness: a line whose query has no `secret` key is skipped and an
all-skipped source returns `false`. -/
theorem c6_missing_secret_skips_witness :
    parse_first_match "otpauth://totp/w?digits=6".data "w".data = .ok none ∧
    search_and_generate_oauth ["otpauth://totp/w?digits=6".data] "w".data 0
      (fun _ => true) = .ok ⟨false, none⟩ := by
  have h := c6_missing_secret_skips "otpauth://totp/w?digits=6".data "w".data
    "w".data "digits=6".data (by decide) (by decide) (by decide)
  exact ⟨h.1, h.2.2.2.2 ["otpauth://totp/w?digits=6".data] 0 (fun _ => true)
    (by simpa using h.1)⟩

/-- C7: digits outside `1..10` make the generator fail with `InvalidDigits`,
and conversely any descriptor for which a code is generated has
`0 < digits ≤ 10`. -/
theorem c7_invalid_digits (d : Descriptor) (t : Nat) :
    (d.digits ≤ 0 ∨ 10 < d.digits → totp_generate d t = .error "InvalidDigits") ∧
    (∀ code, totp_generate d t = .ok code → 0 < d.digits ∧ d.digits ≤ 10) := by
  constructor
  · intro h
    simp [totp_generate, h]
  · intro code hok
    by_cases h : d.digits ≤ 0 ∨ 10 < d.digits
    · simp [totp_generate, h] at hok
    · omega

/-- C7 witness: digits 0 and 11 are rejected at a concrete descriptor. -/
theorem c7_invalid_digits_witness :
    totp_generate ⟨"w".data, "AA".data, 0⟩ 59 = .error "InvalidDigits" ∧
    totp_generate ⟨"w".data, "AA".data, 11⟩ 59 = .error "InvalidDigits" :=
  ⟨(c7_invalid_digits ⟨"w".data, "AA".data, 0⟩ 59).1 (by decide),
   (c7_invalid_digits ⟨"w".data, "AA".data, 11⟩ 59).1 (by decide)⟩

/-- C9: a present-but-empty `secret` value is treated exactly like a missing
`secret` key: the line yields no descriptor and scanning continues. -/
theorem c9_empty_secret_skips (line needle lab q : List Char)
    (hre : reSearch line = some (lab, q))
    (hlab : pyContains (lower needle) (lower lab) = true)
    (hs : dictGet secretKey (buildParams (splitOnChar '&' q)) = some []) :
    parse_first_match line needle = .ok none ∧
    (∀ rest, find_descriptor (line :: rest) needle = find_descriptor rest needle) ∧
    (∀ rest t clip, search_and_generate_oauth (line :: rest) needle t clip =
       search_and_generate_oauth rest needle t clip) := by
  have hp : parse_first_match line needle = .ok none := by
    simp [parse_first_match, hre, hlab, hs]
  exact ⟨hp, fun rest => by simp [find_descriptor, hp],
    fun rest t clip => by simp [search_and_generate_oauth, hp]⟩

/-- C9 witness: `secret=` with an empty value is skipped and the scan moves
on to a later matching line. -/
theorem c9_empty_secret_skips_witness :
    parse_first_match "otpauth://totp/w?secret=&digits=6".data "w".data = .ok none ∧
    find_descriptor ["otpauth://totp/w?secret=&digits=6".data,
        "otpauth://totp/w?secret=AA".data] "w".data =
      .ok (some ⟨"w".data, "AA".data, 6⟩) := by
  have h := c9_empty_secret_skips "otpauth://totp/w?secret=&digits=6".data
    "w".data "w".data "secret=&digits=6".data (by decide) (by decide) (by decide)
  exact ⟨h.1, by rw [h.2.1]; decide⟩

/-- C10: the returned boolean depends only on whether some line yields a
descriptor, never on the clipboard oracle; and when a descriptor is found
and its code generated, the run returns `true` and prints the code to
stdout exactly when the clipboard write failed. -/
theorem c10_bool_independent_of_clipboard (lines : List (List Char))
    (needle : List Char) (t : Nat) :
    (∀ c1 c2, okBool (search_and_generate_oauth lines needle t c1) =
       okBool (search_and_generate_oauth lines needle t c2)) ∧
    (∀ clip r, search_and_generate_oauth lines needle t clip = .ok r →
       (r.ok = true ↔ ∃ d, find_descriptor lines needle = .ok (some d))) ∧
    (∀ clip d code, find_descriptor lines needle = .ok (some d) →
       totp_generate d t = .ok code →
       search_and_generate_oauth lines needle t clip =
         .ok ⟨true, if clip code then none else some code⟩) := by
  refine ⟨?_, ?_, ?_⟩
  · intro c1 c2
    induction lines with
    | nil => rfl
    | cons l ls ih =>
      cases hp : parse_first_match l needle with
      | error e => simp [search_and_generate_oauth, hp]
      | ok o =>
        cases o with
        | none => simpa [search_and_generate_oauth, hp] using ih
        | some d =>
          cases ht : totp_generate d t with
          | error e => simp [search_and_generate_oauth, hp, ht]
          | ok code => simp [search_and_generate_oauth, hp, ht, okBool]
  · intro clip r hr
    induction lines with
    | nil =>
      simp only [search_and_generate_oauth, Except.ok.injEq] at hr
      subst hr
      simp [find_descriptor]
    | cons l ls ih =>
      cases hp : parse_first_match l needle with
      | error e => simp [search_and_generate_oauth, hp] at hr
      | ok o =>
        cases o with
        | none =>
          simp only [search_and_generate_oauth, hp] at hr
          simpa [find_descriptor, hp] using ih hr
        | some d =>
          cases ht : totp_generate d t with
          | error e => simp [search_and_generate_oauth, hp, ht] at hr
          | ok code =>
            simp only [search_and_generate_oauth, hp, ht, Except.ok.injEq] at hr
            subst hr
            simp [find_descriptor, hp]
  · intro clip d code hf ht
    induction lines with
    | nil => simp [find_descriptor] at hf
    | cons l ls ih =>
      cases hp : parse_first_match l needle with
      | error e => simp [find_descriptor, hp] at hf
      | ok o =>
        cases o with
        | none =>
          simp only [find_descriptor, hp] at hf
          simpa [search_and_generate_oauth, hp] using ih hf
        | some d2 =>
          simp only [find_descriptor, hp, Except.ok.injEq, Option.some.injEq] at hf
          subst hf
          simp [search_and_generate_oauth, hp, ht]

/-- C10 witness: with a failing clipboard the run still returns `true` and
prints the code; `13263420` is the 8-digit code of the 10-byte key decoded
from `GEZDGNBVGY3TQOJQ` at Unix time 59. -/
theorem c10_bool_independent_of_clipboard_witness :
    search_and_generate_oauth ["otpauth://totp/w?secret=GEZDGNBVGY3TQOJQ&digits=8".data]
      "w".data 59 (fun _ => false) = .ok ⟨true, some "13263420".data⟩ := by
  have h := (c10_bool_independent_of_clipboard
    ["otpauth://totp/w?secret=GEZDGNBVGY3TQOJQ&digits=8".data] "w".data 59).2.2
    (fun _ => false) ⟨"w".data, "GEZDGNBVGY3TQOJQ".data, 8⟩ "13263420".data
    (by decide) (by decide)
  simpa using h

/-- C3: on the candidate line (label filter passed, non-empty `secret`
present), a missing `digits` key defaults to 6, while an unparsable `digits`
value aborts the whole lookup with a raised error, and an undecodable
base32 secret aborts the whole run — neither silently defaults nor skips to
a later line. -/
theorem c3_candidate_line_fatal (line needle lab q s : List Char)
    (hre : reSearch line = some (lab, q))
    (hlab : pyContains (lower needle) (lower lab) = true)
    (hs : dictGet secretKey (buildParams (splitOnChar '&' q)) = some s)
    (hne : s ≠ []) :
    (dictGet digitsKey (buildParams (splitOnChar '&' q)) = none →
       parse_first_match line needle = .ok (some ⟨lab, s, 6⟩)) ∧
    (∀ dv, dictGet digitsKey (buildParams (splitOnChar '&' q)) = some dv →
       pyInt dv = none →
       ∀ rest t clip, search_and_generate_oauth (line :: rest) needle t clip =
         .error "ValueError: invalid literal for int() with base 10") ∧
    (∀ d rest t clip, parse_first_match line needle = .ok (some d) →
       byte_secret d.secret = none →
       ∃ e, search_and_generate_oauth (line :: rest) needle t clip = .error e) := by
  have hse : s.isEmpty = false := by simp [List.isEmpty_iff, hne]
  refine ⟨fun hd => ?_, fun dv hdv hpi rest t clip => ?_,
    fun d rest t clip hp hb => ?_⟩
  · simp [parse_first_match, hre, hlab, hs, hse, hd]
  · have hp : parse_first_match line needle =
        .error "ValueError: invalid literal for int() with base 10" := by
      simp [parse_first_match, hre, hlab, hs, hse, hdv, hpi]
    simp [search_and_generate_oauth, hp]
  · by_cases hcase : d.digits ≤ 0 ∨ 10 < d.digits
    · exact ⟨"InvalidDigits", by simp [search_and_generate_oauth, hp,
        totp_generate, hcase]⟩
    · exact ⟨"InvalidSecret", by simp [search_and_generate_oauth, hp,
        totp_generate, hcase, hb]⟩

/-- C3 witness: `digits` absent defaults to 6; `digits=abc` on the candidate
line aborts the run with the int() error; an invalid base32 secret aborts
the run. -/
theorem c3_candidate_line_fatal_witness :
    parse_first_match "otpauth://totp/w?secret=AA".data "w".data =
      .ok (some ⟨"w".data, "AA".data, 6⟩) ∧
    search_and_generate_oauth ["otpauth://totp/w?secret=AA&digits=abc".data]
      "w".data 0 (fun _ => true) =
      .error "ValueError: invalid literal for int() with base 10" ∧
    ∃ e, search_and_generate_oauth ["otpauth://totp/w?secret=A1$&digits=6".data]
      "w".data 0 (fun _ => true) = .error e :=
  ⟨(c3_candidate_line_fatal "otpauth://totp/w?secret=AA".data "w".data
      "w".data "secret=AA".data "AA".data (by decide) (by decide) (by decide)
      (by decide)).1 (by decide),
   (c3_candidate_line_fatal "otpauth://totp/w?secret=AA&digits=abc".data
      "w".data "w".data "secret=AA&digits=abc".data "AA".data (by decide)
      (by decide) (by decide) (by decide)).2.1 "abc".data (by decide)
      (by decide) [] 0 (fun _ => true),
   (c3_candidate_line_fatal "otpauth://totp/w?secret=A1$&digits=6".data
      "w".data "w".data "secret=A1$&digits=6".data "A1$".data (by decide)
      (by decide) (by decide) (by decide)).2.2 ⟨"w".data, "A1$".data, 6⟩ [] 0
      (fun _ => true) (by decide) (by decide)⟩

/-- C4: matching is case-insensitive in the three documented places: the
scheme marker (any casing of the marker behaves like the lower-case one),
the label filter (the needle enters only through its case-folding), and the
query keys (`buildParams` folds every key); the spec's concrete mixed-case
example succeeds with the secret value's case preserved. -/
theorem c4_case_insensitive :
    (parse_first_match "otpauth://TOTP/Work?SECRET=AbC234&DIGITS=7".data
       "work".data = .ok (some ⟨"Work".data, "AbC234".data, 7⟩)) ∧
    (∀ line n1 n2, lower n1 = lower n2 →
       parse_first_match line n1 = parse_first_match line n2) ∧
    (∀ m rest, lower m = schemeMarker → m.length = 15 →
       matchAt (m ++ rest) = matchAt (schemeMarker ++ rest)) ∧
    (∀ pairs, (buildParams pairs).map Prod.fst =
       (pairs.filterMap splitOnceEq).map (fun kv => lower kv.1)) := by
  refine ⟨by decide, fun line n1 n2 h => ?_, fun m rest hm hlen => ?_,
    fun pairs => ?_⟩
  · simp only [parse_first_match]
    rw [h]
  · have h1 : (m ++ rest).take 15 = m := by
      rw [← hlen]; exact List.take_left m rest
    have h2 : (m ++ rest).drop 15 = rest := by
      rw [← hlen]; exact List.drop_left m rest
    have hmlen : schemeMarker.length = 15 := by decide
    have h3 : (schemeMarker ++ rest).take 15 = schemeMarker := by
      rw [← hmlen]; exact List.take_left schemeMarker rest
    have h4 : (schemeMarker ++ rest).drop 15 = rest := by
      rw [← hmlen]; exact List.drop_left schemeMarker rest
    have h5 : lower schemeMarker = schemeMarker := by decide
    simp only [matchAt, h1, h2, h3, h4, h5, hm]
  · simp only [buildParams, List.map_map]
    rfl

/-- C4 witness: the needle invariance applied to `WoRk` vs `work` at a
concrete line. -/
theorem c4_case_insensitive_witness :
    parse_first_match "otpauth://TOTP/Work?SECRET=AbC234&DIGITS=7".data
      "WoRk".data =
    parse_first_match "otpauth://TOTP/Work?SECRET=AbC234&DIGITS=7".data
      "work".data :=
  c4_case_insensitive.2.1 "otpauth://TOTP/Work?SECRET=AbC234&DIGITS=7".data
    "WoRk".data "work".data (by decide)

/-- C5: the query string splits on `&`; each pair splits once at its first
`=` (values may contain `=`); pairs without `=` are ignored; duplicate
case-folded keys keep the last occurrence; pairs with any other key never
affect a lookup. -/
theorem c5_query_string_parse :
    (∀ p s : List Char, '&' ∉ p →
       splitOnChar '&' (p ++ '&' :: s) = p :: splitOnChar '&' s) ∧
    (∀ p : List Char, '&' ∉ p → splitOnChar '&' p = [p]) ∧
    (∀ k v : List Char, '=' ∉ k → splitOnceEq (k ++ '=' :: v) = some (k, v)) ∧
    (∀ p : List Char, '=' ∉ p → splitOnceEq p = none) ∧
    (∀ (p : List Char) (ps : List (List Char)), '=' ∉ p →
       buildParams (p :: ps) = buildParams ps) ∧
    (∀ (key v : List Char) (ps1 ps2 : List (List Char × List Char)),
       dictGet key ps2 = some v → dictGet key (ps1 ++ ps2) = some v) ∧
    (∀ (g pr : List Char) (ps : List (List Char)),
       (∀ kv, splitOnceEq pr = some kv → lower kv.1 ≠ g) →
       dictGet g (buildParams (pr :: ps)) = dictGet g (buildParams ps)) := by
  refine ⟨splitOnChar_append_sep '&', splitOnChar_no_sep '&', splitOnceEq_first,
    splitOnceEq_no_eq, fun p ps hp => ?_, dictGet_append_some,
    fun g pr ps h => ?_⟩
  · simp [buildParams, splitOnceEq_no_eq p hp]
  · cases hsp : splitOnceEq pr with
    | none => simp [buildParams, hsp]
    | some kv =>
      have hb : buildParams (pr :: ps) = (lower kv.1, kv.2) :: buildParams ps := by
        simp [buildParams, hsp]
      rw [hb, dictGet_cons_ne g (lower kv.1, kv.2) (buildParams ps) (h kv hsp)]

/-- C5 witness: `a=1=2` keeps `=` in the value, a bare `flag` pair is
ignored, and of two `secret` bindings the last wins. -/
theorem c5_query_string_parse_witness :
    splitOnceEq ("a".data ++ '=' :: "1=2".data) = some ("a".data, "1=2".data) ∧
    buildParams ("flag".data :: ["secret=X".data]) =
      buildParams ["secret=X".data] ∧
    dictGet "secret".data ([("secret".data, "A".data)] ++
      [("secret".data, "B".data)]) = some "B".data :=
  ⟨c5_query_string_parse.2.2.1 "a".data "1=2".data (by decide),
   c5_query_string_parse.2.2.2.2.1 "flag".data ["secret=X".data] (by decide),
   c5_query_string_parse.2.2.2.2.2.1 "secret".data "B".data
     [("secret".data, "A".data)] [("secret".data, "B".data)] (by decide)⟩

/-- `takeWhile` splits off a satisfying prefix before a failing element. -/
theorem takeWhile_prefix_stop (p : Char → Bool) (xs : List Char) (y : Char)
    (ys : List Char) (hxs : ∀ x ∈ xs, p x = true) (hy : p y = false) :
    (xs ++ y :: ys).takeWhile p = xs := by
  induction xs with
  | nil => simp [List.takeWhile_cons, hy]
  | cons x xs ih =>
    have hx : p x = true := hxs x (by simp)
    simp only [List.cons_append, List.takeWhile_cons, hx]
    simp [ih (fun x' hx' => hxs x' (by simp [hx']))]

/-- C8 counterexample: the label group of the regex is `[^?]+`, so whitespace
is allowed inside a label; a line with a space between the marker and the
`?` still yields a descriptor, contradicting the claim that it yields none. -/
theorem c8_whitespace_label_counterexample :
    parse_first_match "otpauth://totp/my home?secret=AA".data "home".data =
      .ok (some ⟨"my home".data, "AA".data, 6⟩) := by decide

/-- C8 amended: a line matches exactly the grammar of the source regex:
the case-insensitive marker, a non-empty label of non-`?` characters
(whitespace permitted), a `?`, and a non-empty query run free of the
regex `\s` class; conversely any successful match has that shape. -/
theorem c8_line_grammar :
    (∀ m lab q : List Char, lower m = schemeMarker → '?' ∉ lab → lab ≠ [] →
       q ≠ [] → (∀ c ∈ q, reWhitespace c = false) →
       reSearch (m ++ (lab ++ '?' :: q)) = some (lab, q)) ∧
    (∀ s lab q, matchAt s = some (lab, q) →
       lab ≠ [] ∧ '?' ∉ lab ∧ q ≠ [] ∧ (∀ c ∈ q, reWhitespace c = false) ∧
       lower (s.take 15) = schemeMarker) := by
  constructor
  · intro m lab q hm hq hlabne hqne hws
    have hlen : m.length = 15 := by
      have := congrArg List.length hm
      simpa [lower] using this
    have h1 : (m ++ (lab ++ '?' :: q)).take 15 = m := by
      rw [← hlen]; exact List.take_left m _
    have h2 : (m ++ (lab ++ '?' :: q)).drop 15 = lab ++ '?' :: q := by
      rw [← hlen]; exact List.drop_left m _
    have h3 : (lab ++ '?' :: q).takeWhile (fun c => c ≠ '?') = lab := by
      apply takeWhile_prefix_stop
      · intro x hx
        have hxne : x ≠ '?' := fun hxx => hq (hxx ▸ hx)
        simpa using hxne
      · simp
    have h4 : (lab ++ '?' :: q).drop lab.length = '?' :: q := List.drop_left lab _
    have h5 : q.takeWhile (fun c => ¬ reWhitespace c) = q :=
      List.takeWhile_eq_self_iff.mpr (fun x hx => by simp [hws x hx])
    have hlabE : lab.isEmpty = false := by simp [List.isEmpty_iff, hlabne]
    have hqE : q.isEmpty = false := by simp [List.isEmpty_iff, hqne]
    have hmat : matchAt (m ++ (lab ++ '?' :: q)) = some (lab, q) := by
      simp only [matchAt, h1, hm, if_pos rfl, h2, h3, h4, h5, hlabE, hqE]
      simp
    cases m with
    | nil => simp at hlen
    | cons c ms =>
      rw [List.cons_append] at hmat ⊢
      simp only [reSearch]
      rw [hmat]
  · intro s lab q h
    unfold matchAt at h
    simp only [] at h
    split at h
    case isTrue hc =>
      split at h
      case h_1 heq after hdrop =>
        split at h
        case isTrue => exact absurd h (by simp)
        case isFalse hemp =>
          split at h
          case isTrue => exact absurd h (by simp)
          case isFalse hqemp =>
            simp only [Option.some.injEq, Prod.mk.injEq] at h
            obtain ⟨hlab, hq⟩ := h
            refine ⟨?_, ?_, ?_, ?_, hc⟩
            · intro hnil
              rw [hnil] at hlab
              rw [hlab] at hemp
              simp at hemp
            · intro hmem
              rw [← hlab] at hmem
              have := List.mem_takeWhile_imp hmem
              simp at this
            · intro hnil
              rw [hnil] at hq
              rw [hq] at hqemp
              simp at hqemp
            · intro x hx
              rw [← hq] at hx
              have := List.mem_takeWhile_imp hx
              simpa using this
      case h_2 => exact absurd h (by simp)
    case isFalse hc => exact absurd h (by simp)

/-- C8 witness: the grammar completeness applied to a concrete mixed-case
marker and a label containing a space. -/
theorem c8_line_grammar_witness :
    reSearch ("otpAuth://Totp/".data ++ ("my home".data ++ '?' :: "secret=AA".data)) =
      some ("my home".data, "secret=AA".data) :=
  c8_line_grammar.1 "otpAuth://Totp/".data "my home".data "secret=AA".data
    (by decide) (by decide) (by decide) (by decide) (by decide)

/-- C1 counterexample: the spec's 16-character secret `GEZDGNBVGY3TQOJQ`
decodes to the 10-byte key `1234567890`, not the 20-byte RFC 6238 test key
`12345678901234567890`, so at Unix times 59 and 1111111109 the generated
8-digit codes are `13263420` and `93343526`, not the claimed `94287082`
and `07081804`. -/
theorem c1_spec_vector_counterexample :
    byte_secret "GEZDGNBVGY3TQOJQ".data = some ("1234567890".data.map Char.toNat) ∧
    totp_generate ⟨"x".data, "GEZDGNBVGY3TQOJQ".data, 8⟩ 59 =
      .ok "13263420".data ∧
    totp_generate ⟨"x".data, "GEZDGNBVGY3TQOJQ".data, 8⟩ 1111111109 =
      .ok "93343526".data ∧
    "13263420".data ≠ "94287082".data ∧ "93343526".data ≠ "07081804".data :=
  ⟨by decide, by decide, by decide, by decide, by decide⟩

/-- C1 amended: every code the generator produces for a descriptor with a
decodable secret and positive digits equals the RFC 6238 reference
computation on the decoded key; and for the full 32-character base32 secret
of the RFC test key `12345678901234567890` with digits 8 the codes at Unix
times 59 and 1111111109 are `94287082` and `07081804`. -/
theorem c1_generate_matches_reference :
    (∀ (d : Descriptor) (t : Nat) (key : List Nat) (code : List Char),
       byte_secret d.secret = some key → 0 < d.digits →
       totp_generate d t = .ok code →
       code = rfc6238_reference key d.digits.toNat t) ∧
    totp_generate ⟨"rfc".data, "GEZDGNBVGY3TQOJQGEZDGNBVGY3TQOJQ".data, 8⟩ 59 =
      .ok "94287082".data ∧
    totp_generate ⟨"rfc".data, "GEZDGNBVGY3TQOJQGEZDGNBVGY3TQOJQ".data, 8⟩
      1111111109 = .ok "07081804".data := by
  refine ⟨fun d t key code hk hpos hok => ?_, by decide, by decide⟩
  by_cases hd : d.digits ≤ 0 ∨ 10 < d.digits
  · simp [totp_generate, hd] at hok
  · simp only [totp_generate, if_neg hd, hk, Except.ok.injEq] at hok
    rw [← hok]
    rfl

/-- C1 witness: the generator/reference agreement applied at the RFC key and
Unix time 59. -/
theorem c1_generate_matches_reference_witness :
    totp_generate ⟨"rfc".data, "GEZDGNBVGY3TQOJQGEZDGNBVGY3TQOJQ".data, 8⟩ 59 =
      .ok "94287082".data ∧
    "94287082".data =
      rfc6238_reference ("12345678901234567890".data.map Char.toNat) 8 59 :=
  ⟨by decide,
   c1_generate_matches_reference.1
     ⟨"rfc".data, "GEZDGNBVGY3TQOJQGEZDGNBVGY3TQOJQ".data, 8⟩ 59
     ("12345678901234567890".data.map Char.toNat) "94287082".data
     (by decide) (by decide) (by decide)⟩

end OauthScript
